import Mathlib

/-!
Verification of the Narrative Context Engine of the storyforge backend.

The embedding below translates the TypeScript sources
(`src/services/enhancedRAGService.ts`, `src/services/storyBeatTriggerService.ts`,
the story state manager, and the pacing classifier's `updateTension` in
`src/services/enhancedStoryPromptService.ts`) into executable Lean
definitions.  Strings are modelled as `List Char`; JavaScript `Date` values
are modelled as `Nat` ticks threaded explicitly; the in-memory `Map` of
story states is modelled as an association list; `Partial<StoryState>`
is modelled as a record of `Option` fields.
-/

set_option maxHeartbeats 1000000

namespace StoryForge

/-- Strings from the source are modelled as lists of characters. -/
abbrev Str := List Char

/-- ASCII lowercasing of a character, the effect of JavaScript
`toLowerCase` on the ASCII inputs this engine handles. -/
def toLowerChar (c : Char) : Char :=
  if 'A' ≤ c ∧ c ≤ 'Z' then Char.ofNat (c.toNat + 32) else c

/-- Model of `s.toLowerCase()` on an ASCII string. -/
def toLowerStr (s : Str) : Str := s.map toLowerChar

/-- Boolean prefix test used by the substring search. -/
def isPrefixB : Str → Str → Bool
  | [], _ => true
  | _ :: _, [] => false
  | a :: as, b :: bs => decide (a = b) && isPrefixB as bs

/-- JavaScript `hay.includes(pat)`: `pat` occurs as a contiguous substring
of `hay` (the empty pattern always occurs). -/
def containsSub : Str → Str → Bool
  | [], pat => pat.isEmpty
  | c :: rest, pat => isPrefixB pat (c :: rest) || containsSub rest pat

/-- Word characters of the JavaScript regular-expression class `\w`,
which delimits the `\b` boundaries used in `calculateBaseScore`. -/
def isWordChar (c : Char) : Bool :=
  decide (('a' ≤ c ∧ c ≤ 'z') ∨ ('A' ≤ c ∧ c ≤ 'Z') ∨ ('0' ≤ c ∧ c ≤ '9') ∨ c = '_')

/-- Scan for `content.match(new RegExp(word, 'g'))`: after a match the
scan resumes past the matched occurrence, tracked by the `skip` counter of
remaining characters to consume without testing. -/
def countOccGo (w : Str) : Str → Nat → Nat
  | [], _ => 0
  | c :: rest, skip =>
    if 0 < skip then countOccGo w rest (skip - 1)
    else if isPrefixB w (c :: rest) then 1 + countOccGo w rest (w.length - 1)
    else countOccGo w rest 0

/-- Number of matches of `content.match(new RegExp(word, 'g'))`:
non-overlapping occurrences of `w`, scanning left to right.  (For the
empty pattern, which no caller produces since keywords have length > 2,
the `g`-scan of the real regex engine would additionally count the
end-of-string position.) -/
def countOcc (w content : Str) : Nat := countOccGo w content 0

/-- Boundary check on the left of a whole-word match: there is a `\b`
before a word-character when the previous character is absent or not a
word character. -/
def boundaryBefore : Option Char → Bool
  | none => true
  | some c => !isWordChar c

/-- Boundary check on the right of a whole-word match. -/
def boundaryAfter : Str → Bool
  | [] => true
  | c :: _ => !isWordChar c

/-- Scan for `content.match(new RegExp('\\b' + word + '\\b', 'g'))`,
tracking the character preceding the scan position and, after a match, the
number of matched characters still to consume.  Faithful for patterns made
of word characters, which is what `extractKeywords` produces (lowercase
letters only). -/
def countWWGo (w : Str) : Option Char → Nat → Str → Nat
  | _, _, [] => 0
  | prev, skip, c :: rest =>
    if 0 < skip then countWWGo w (some c) (skip - 1) rest
    else if w ≠ [] ∧ isPrefixB w (c :: rest) = true ∧ boundaryBefore prev = true ∧
        boundaryAfter (rest.drop (w.length - 1)) = true then
      1 + countWWGo w (some c) (w.length - 1) rest
    else countWWGo w (some c) 0 rest

/-- Number of whole-word matches of `word` in `content`. -/
def countWholeWord (w content : Str) : Nat := countWWGo w none 0 content

/-- Whitespace characters of the regular expression `\s` as relevant to
the engine's ASCII inputs. -/
def isWs (c : Char) : Bool := decide (c = ' ' ∨ c = '\t' ∨ c = '\n' ∨ c = '\r')

/-- Helper for `splitWs`; `acc` holds the current token reversed. -/
def splitWsGo : Str → Str → List Str
  | [], acc => if acc.isEmpty then [] else [acc.reverse]
  | c :: rest, acc =>
    if isWs c then
      if acc.isEmpty then splitWsGo rest [] else acc.reverse :: splitWsGo rest []
    else splitWsGo rest (c :: acc)

/-- Model of `query.split(/\s+/)` restricted to nonempty tokens: the maximal runs
of non-whitespace characters.  (JavaScript's split additionally yields
empty edge tokens, which the `length > 2` filter of `extractKeywords`
removes, so the two are observationally equal for every caller.) -/
def splitWs (s : Str) : List Str := splitWsGo s []

/-! ## Data model of the Contextual Retrieval Engine (`enhancedRAGService.ts`) -/

/-- Document metadata shared by `StoryDocument` and `EnhancedContext`.
`storyWeight` is an integer in every corpus; scores are modelled in `Int`. -/
structure DocMetadata where
  type : Str
  id : Str
  name : Option Str
  title : Option Str
  category : Str
  connections : Option (List Str)
  storyWeight : Option Int
deriving DecidableEq, Repr

/-- Model of `StoryDocument` of `enhancedRAGService.ts`. -/
structure StoryDocument where
  content : Str
  metadata : DocMetadata
deriving DecidableEq, Repr

/-- Model of `EnhancedContext` of `enhancedRAGService.ts` (named `ScoredContext` in
the specification). -/
structure EnhancedContext where
  content : Str
  relevanceScore : Int
  relationshipScore : Int
  storyRelevanceScore : Int
  metadata : DocMetadata
deriving DecidableEq, Repr

/-! ## Data model of the Story State Store (story state manager) -/

/-- One entry of `playerChoices`. -/
structure PlayerChoice where
  beatId : Str
  choice : Str
  consequence : Str
  timestamp : Nat
deriving DecidableEq, Repr

/-- The `relationshipLevel` union type. -/
inductive RelationshipLevel where
  | unknown | met | friendly | hostile | allied | romance
deriving DecidableEq, Repr

/-- One entry of `relationshipStates`. -/
structure RelationshipState where
  characterId : Str
  relationshipLevel : RelationshipLevel
  lastInteraction : Nat
  keyEvents : List Str
deriving DecidableEq, Repr

/-- The `metadata` record of a story state. -/
structure StateMetadata where
  lastUpdated : Nat
  totalPlayTime : Nat
  majorDecisions : Nat
deriving DecidableEq, Repr

/-- Model of `StoryState` of the story state manager.  The JavaScript `Record`
fields (`relationshipStates`, `storyFlags`) are association lists. -/
structure StoryState where
  storyId : Str
  sessionId : Str
  currentLocation : Str
  completedBeats : List Str
  activeBeats : List Str
  discoveredCharacters : List Str
  knownLocations : List Str
  playerChoices : List PlayerChoice
  relationshipStates : List (Str × RelationshipState)
  inventoryItems : List Str
  revealedLore : List Str
  storyFlags : List (Str × Bool)
  metadata : StateMetadata
deriving DecidableEq, Repr

/-- First-match lookup in an association list, the behaviour of reading a
key of a JavaScript object or `Map`. -/
def lookupAssoc {α : Type} (key : Str) : List (Str × α) → Option α
  | [] => none
  | (k, v) :: rest => if k = key then some v else lookupAssoc key rest

/-- Assignment to a key of a JavaScript object or `Map`: replace the
binding if present, otherwise add it. -/
def setAssoc {α : Type} (key : Str) (v : α) : List (Str × α) → List (Str × α)
  | [] => [(key, v)]
  | (k, w) :: rest => if k = key then (key, v) :: rest else (k, w) :: setAssoc key v rest

/-- The in-memory `Map<string, StoryState>` of the story state manager. -/
abbrev Store := List (Str × StoryState)

/-- Model of `` `${storyId}-${sessionId}` ``, the key of the story state map. -/
def stateKey (storyId sessionId : Str) : Str := storyId ++ '-' :: sessionId

/-- The default `initialLocation` parameter of `getOrCreateStoryState`. -/
def defaultInitialLocation : Str := "whispering_woods".toList

/-- The fresh state materialised by `getOrCreateStoryState`. -/
def freshState (storyId sessionId initialLocation : Str) (now : Nat) : StoryState :=
  { storyId := storyId
    sessionId := sessionId
    currentLocation := initialLocation
    completedBeats := []
    activeBeats := ["opening_choice".toList]
    discoveredCharacters := []
    knownLocations := [initialLocation]
    playerChoices := []
    relationshipStates := []
    inventoryItems := []
    revealedLore := []
    storyFlags := []
    metadata := { lastUpdated := now, totalPlayTime := 0, majorDecisions := 0 } }

/-- Model of `getOrCreateStoryState(storyId, sessionId, initialLocation)`: return
the stored state, materialising a fresh one on first access.  `new Date()`
is modelled by the explicit `now` tick. -/
def getOrCreateStoryState (store : Store) (storyId sessionId initialLocation : Str)
    (now : Nat) : StoryState × Store :=
  let key := stateKey storyId sessionId
  match lookupAssoc key store with
  | some s => (s, store)
  | none =>
    let s := freshState storyId sessionId initialLocation now
    (s, setAssoc key s store)

/-- Model of `Partial<StoryState>`: each top-level field is either present or
absent. -/
structure StoryStatePartial where
  storyId : Option Str := none
  sessionId : Option Str := none
  currentLocation : Option Str := none
  completedBeats : Option (List Str) := none
  activeBeats : Option (List Str) := none
  discoveredCharacters : Option (List Str) := none
  knownLocations : Option (List Str) := none
  playerChoices : Option (List PlayerChoice) := none
  relationshipStates : Option (List (Str × RelationshipState)) := none
  inventoryItems : Option (List Str) := none
  revealedLore : Option (List Str) := none
  storyFlags : Option (List (Str × Bool)) := none
  metadata : Option StateMetadata := none
deriving DecidableEq, Repr

/-- The spread `{...currentState, ...updates, metadata: {...currentState.metadata,
lastUpdated: new Date()}}` of `updateStoryState`: present fields of the
partial override the stored record, and the final `metadata` entry always
spreads the *current* metadata with a refreshed `lastUpdated` (a `metadata`
field of the partial is therefore discarded). -/
def applyPartial (s : StoryState) (u : StoryStatePartial) (now : Nat) : StoryState :=
  { storyId := u.storyId.getD s.storyId
    sessionId := u.sessionId.getD s.sessionId
    currentLocation := u.currentLocation.getD s.currentLocation
    completedBeats := u.completedBeats.getD s.completedBeats
    activeBeats := u.activeBeats.getD s.activeBeats
    discoveredCharacters := u.discoveredCharacters.getD s.discoveredCharacters
    knownLocations := u.knownLocations.getD s.knownLocations
    playerChoices := u.playerChoices.getD s.playerChoices
    relationshipStates := u.relationshipStates.getD s.relationshipStates
    inventoryItems := u.inventoryItems.getD s.inventoryItems
    revealedLore := u.revealedLore.getD s.revealedLore
    storyFlags := u.storyFlags.getD s.storyFlags
    metadata := { s.metadata with lastUpdated := now } }

/-- Model of `updateStoryState(storyId, sessionId, updates)`. -/
def updateStoryState (store : Store) (storyId sessionId : Str) (u : StoryStatePartial)
    (now : Nat) : StoryState × Store :=
  let key := stateKey storyId sessionId
  let (currentState, store1) := getOrCreateStoryState store storyId sessionId
    defaultInitialLocation now
  let updatedState := applyPartial currentState u now
  (updatedState, setAssoc key updatedState store1)

/-- The full partial `recordPlayerChoice` passes when it feeds the mutated
state object back through `updateStoryState`. -/
def fullPartial (s : StoryState) : StoryStatePartial :=
  { storyId := some s.storyId
    sessionId := some s.sessionId
    currentLocation := some s.currentLocation
    completedBeats := some s.completedBeats
    activeBeats := some s.activeBeats
    discoveredCharacters := some s.discoveredCharacters
    knownLocations := some s.knownLocations
    playerChoices := some s.playerChoices
    relationshipStates := some s.relationshipStates
    inventoryItems := some s.inventoryItems
    revealedLore := some s.revealedLore
    storyFlags := some s.storyFlags
    metadata := some s.metadata }

/-- Model of `recordPlayerChoice(storyId, sessionId, beatId, choice, consequence)`.
The source mutates the stored state object in place (the push to
`playerChoices`, the unconditional completion of `beatId`, the removal
from `activeBeats` and the `majorDecisions` increment) and then feeds the
same object through `updateStoryState`; the in-place mutation is modelled
by writing the mutated record back to the store before that call. -/
def recordPlayerChoice (store : Store) (storyId sessionId beatId choice consequence : Str)
    (now : Nat) : Store :=
  let key := stateKey storyId sessionId
  let (state, store1) := getOrCreateStoryState store storyId sessionId
    defaultInitialLocation now
  let s1 := { state with
    playerChoices := state.playerChoices ++
      [({ beatId := beatId, choice := choice, consequence := consequence,
          timestamp := now } : PlayerChoice)] }
  let s2 := if beatId ∈ s1.completedBeats then s1
    else { s1 with completedBeats := s1.completedBeats ++ [beatId] }
  let s3 := { s2 with activeBeats := s2.activeBeats.filter (fun i => decide (i ≠ beatId)) }
  let s4 := { s3 with metadata := { s3.metadata with
    majorDecisions := s3.metadata.majorDecisions + 1 } }
  let store2 := setAssoc key s4 store1
  (updateStoryState store2 storyId sessionId (fullPartial s4) now).2

/-! ## Contextual Retrieval Engine (`enhancedRAGService.ts`) -/

/-- The stop-word set of `extractKeywords`. -/
def stopWords : List Str :=
  ["the".toList, "a".toList, "an".toList, "and".toList, "or".toList, "but".toList,
   "in".toList, "on".toList, "at".toList, "to".toList, "for".toList, "of".toList,
   "with".toList, "by".toList, "is".toList, "are".toList, "was".toList, "were".toList,
   "be".toList, "been".toList, "being".toList, "have".toList, "has".toList, "had".toList,
   "do".toList, "does".toList, "did".toList, "will".toList, "would".toList,
   "should".toList, "could".toList, "may".toList, "might".toList, "must".toList,
   "can".toList, "i".toList, "you".toList, "he".toList, "she".toList, "it".toList,
   "we".toList, "they".toList, "me".toList, "him".toList, "her".toList, "us".toList,
   "them".toList]

/-- The regular expression `/^[a-z]+$/`: nonempty and all lowercase
letters. -/
def allLowerAlpha (w : Str) : Bool :=
  decide (w ≠ []) && w.all (fun c => decide ('a' ≤ c ∧ c ≤ 'z'))

/-- Model of `extractKeywords(query)`: lowercase, split on whitespace, keep words
of length > 2 that are not stop words, then keep only purely alphabetic
words. -/
def extractKeywords (query : Str) : List Str :=
  ((splitWs (toLowerStr query)).filter
    (fun word => decide (2 < word.length) && !decide (word ∈ stopWords))).filter
    (fun word => allLowerAlpha word)

/-- Model of `calculateBaseScore(doc, queryWords)`: per keyword, whole-word matches
in the lowercased content count ×3, remaining substring occurrences ×1,
plus a flat 5 when the keyword occurs in the lowercased `name` or `title`. -/
def calculateBaseScore (doc : StoryDocument) (queryWords : List Str) : Int :=
  let content := toLowerStr doc.content
  queryWords.foldl (fun score word =>
    let exactMatches : Int := (countWholeWord word content : Nat)
    let partialMatches : Int := ((countOcc word content : Nat) : Int) - exactMatches
    let nameMatch : Int :=
      if (match doc.metadata.name with
          | some n => containsSub (toLowerStr n) word
          | none => false) ||
         (match doc.metadata.title with
          | some t => containsSub (toLowerStr t) word
          | none => false) then 5 else 0
    score + exactMatches * 3 + partialMatches * 1 + nameMatch) 0

/-- Model of `getRelationshipBonus(level)`. -/
def getRelationshipBonus (level : RelationshipLevel) : Int :=
  match level with
  | .allied => 12
  | .friendly => 8
  | .romance => 10
  | .met => 5
  | .hostile => 7
  | .unknown => 0

/-- Model of `calculateRelationshipScore(doc, storyState, queryWords)` (the
`queryWords` parameter is unused in the source as well). -/
def calculateRelationshipScore (doc : StoryDocument) (s : StoryState)
    (_queryWords : List Str) : Int :=
  (if doc.metadata.type = "character".toList ∧ doc.metadata.id ∈ s.discoveredCharacters
    then 10 else 0) +
  (if doc.metadata.type = "location".toList ∧ doc.metadata.id ∈ s.knownLocations
    then 8 else 0) +
  (if doc.metadata.type = "location".toList ∧ doc.metadata.id = s.currentLocation
    then 15 else 0) +
  (if doc.metadata.type = "character".toList then
    match lookupAssoc doc.metadata.id s.relationshipStates with
    | some relationship => getRelationshipBonus relationship.relationshipLevel
    | none => 0
   else 0) +
  (if doc.metadata.type = "story_beat".toList ∧ doc.metadata.id ∈ s.completedBeats
    then 5 else 0) +
  (if doc.metadata.type = "lore".toList ∧ doc.metadata.id ∈ s.revealedLore
    then 6 else 0)

/-- Model of `calculateStoryRelevanceScore(doc, storyState)`.  A missing
`storyWeight` contributes 0, exactly as the falsy-guarded addition in the
source. -/
def calculateStoryRelevanceScore (doc : StoryDocument) (s : StoryState) : Int :=
  (min (s.completedBeats.length * 2 : Int) 10) +
  (if doc.metadata.type = "story_beat".toList ∧ doc.metadata.id ∈ s.activeBeats
    then 20 else 0) +
  doc.metadata.storyWeight.getD 0

/-- Model of `getTotalScore(result)`. -/
def getTotalScore (r : EnhancedContext) : Int :=
  r.relevanceScore + r.relationshipScore + r.storyRelevanceScore

/-- The scored entry built for one document in `searchStoryContextEnhanced`. -/
def scoreDocument (s : StoryState) (queryWords : List Str) (doc : StoryDocument) :
    EnhancedContext :=
  { content := doc.content
    relevanceScore := calculateBaseScore doc queryWords
    relationshipScore := calculateRelationshipScore doc s queryWords
    storyRelevanceScore := calculateStoryRelevanceScore doc s
    metadata := doc.metadata }

/-- Stable descending insertion by `getTotalScore`: an element moves past
exactly the strictly greater entries, landing before equal ones that came
later in the input. -/
def insertByTotalDesc (x : EnhancedContext) : List EnhancedContext → List EnhancedContext
  | [] => [x]
  | y :: ys =>
    if getTotalScore x < getTotalScore y then y :: insertByTotalDesc x ys
    else x :: y :: ys

/-- The stable sort `.sort((a, b) => getTotalScore(b) - getTotalScore(a))`
(JavaScript `Array.prototype.sort` is stable), modelled as stable
insertion sort, which computes the same unique stable ordering. -/
def sortByTotalDesc : List EnhancedContext → List EnhancedContext
  | [] => []
  | x :: xs => insertByTotalDesc x (sortByTotalDesc xs)

/-- Model of `hasCharacterRelationship(char1Id, char2Id, content)`. -/
def hasCharacterRelationship (char1Id char2Id content : Str) : Bool :=
  containsSub (toLowerStr content) (toLowerStr char1Id) ||
  containsSub (toLowerStr content) (toLowerStr char2Id)

/-- The connection keywords of `hasLocationConnection`. -/
def connectionKeywords : List Str :=
  ["connection".toList, "connected".toList, "border".toList, "path".toList,
   "entrance".toList, "exit".toList]

/-- Model of `hasLocationConnection(loc1Id, loc2Id, content)`. -/
def hasLocationConnection (loc1Id loc2Id content : Str) : Bool :=
  (connectionKeywords.any (fun keyword => containsSub (toLowerStr content) keyword)) &&
  (containsSub (toLowerStr content) (toLowerStr loc1Id) ||
   containsSub (toLowerStr content) (toLowerStr loc2Id))

/-- Model of `findRelatedDocuments(result, allDocuments, storyState)`: scan the
whole corpus; each of the four independent relation rules pushes the
candidate document. -/
def findRelatedDocuments (result : EnhancedContext) (allDocuments : List StoryDocument) :
    List StoryDocument :=
  allDocuments.foldl (fun related doc =>
    if doc.metadata.id = result.metadata.id then related
    else
      let related := if result.metadata.type = "character".toList ∧
          doc.metadata.type = "character".toList ∧
          hasCharacterRelationship result.metadata.id doc.metadata.id doc.content = true
        then related ++ [doc] else related
      let related := if result.metadata.type = "location".toList ∧
          doc.metadata.type = "location".toList ∧
          hasLocationConnection result.metadata.id doc.metadata.id doc.content = true
        then related ++ [doc] else related
      let related := if result.metadata.type = "character".toList ∧
          doc.metadata.type = "location".toList ∧
          containsSub (toLowerStr doc.content)
            ((result.metadata.name.map toLowerStr).getD []) = true
        then related ++ [doc] else related
      let related := if result.metadata.type = "story_beat".toList ∧
          containsSub (toLowerStr doc.content)
            ((result.metadata.name.map toLowerStr).getD []) = true
        then related ++ [doc] else related
      related) []

/-- The `EnhancedContext` built for an expansion document: `relevanceScore`
is 0 because the related entry is scored with an empty keyword set. -/
def mkExpanded (doc : StoryDocument) (s : StoryState) : EnhancedContext :=
  { content := doc.content
    relevanceScore := 0
    relationshipScore := calculateRelationshipScore doc s []
    storyRelevanceScore := calculateStoryRelevanceScore doc s
    metadata := doc.metadata }

/-- The inner loop of `expandRelatedContext`: append each related document
whose id is not yet included while the result set holds fewer than 12
entries. -/
def expandStep (s : StoryState) (acc : List EnhancedContext × List Str)
    (relatedDocs : List StoryDocument) : List EnhancedContext × List Str :=
  relatedDocs.foldl (fun acc2 relatedDoc =>
    if relatedDoc.metadata.id ∉ acc2.2 ∧ acc2.1.length < 12 then
      (acc2.1 ++ [mkExpanded relatedDoc s], acc2.2 ++ [relatedDoc.metadata.id])
    else acc2) acc

/-- Model of `expandRelatedContext(results, allDocuments, storyState)`. -/
def expandRelatedContext (results : List EnhancedContext)
    (allDocuments : List StoryDocument) (s : StoryState) : List EnhancedContext :=
  (results.foldl (fun acc result =>
      expandStep s acc (findRelatedDocuments result allDocuments))
    (results, results.map (fun r => r.metadata.id))).1

/-- Model of `searchStoryContextEnhanced(storyId, sessionId, query, documents,
maxResults)`: score every document against the stored state, drop entries
with non-positive total score, stable-sort descending by total score, keep
the first `maxResults`, then expand with related documents.  Returns the
result list together with the (possibly lazily extended) store. -/
def searchStoryContextEnhanced (store : Store) (storyId sessionId query : Str)
    (documents : List StoryDocument) (maxResults : Nat) (now : Nat) :
    List EnhancedContext × Store :=
  let (storyState, store1) := getOrCreateStoryState store storyId sessionId
    defaultInitialLocation now
  let queryLower := toLowerStr query
  let queryWords := extractKeywords queryLower
  let scoredResults := documents.map (scoreDocument storyState queryWords)
  let filteredResults :=
    sortByTotalDesc (scoredResults.filter (fun r => decide (0 < getTotalScore r)))
  let expandedResults :=
    expandRelatedContext (filteredResults.take maxResults) documents storyState
  (expandedResults, store1)

/-! ## Beat Trigger Evaluator (`storyBeatTriggerService.ts`) -/

/-- The beat `type` union. -/
inductive BeatType where
  | decision_point | character_introduction | major_conflict | climax | exposition_lore
deriving DecidableEq, Repr

/-- One entry of a beat's `choices` array (only `leads_to` is consulted by
the evaluator). -/
structure BeatChoice where
  option : Str
  leads_to : Option Str
  consequences : Str
  character_impact : Option Str
deriving DecidableEq, Repr

/-- One entry of `final_choices`. -/
structure FinalChoice where
  option : Str
  consequences : Str
  ending : Str
deriving DecidableEq, Repr

/-- Model of `StoryBeatData` of `storyBeatTriggerService.ts` (the fields the
evaluator reads; `repeatable?: boolean` behaves as `false` when absent and
is modelled as `Bool`, and likewise `multiple_outcomes`). -/
structure StoryBeatData where
  id : Str
  name : Str
  type : BeatType
  description : Str
  triggers : Option (List Str)
  prerequisites : Option (List Str)
  choices : Option (List BeatChoice)
  dialogue_triggers : Option (List Str)
  key_information_revealed : Option (List Str)
  story_significance : Str
  repeatable : Bool
  multiple_outcomes : Bool
  final_choices : Option (List FinalChoice)
  wisdom_shared : Option (List Str)
deriving DecidableEq, Repr

/-- The `contextModifications` accumulator of `analyzeAndTriggerBeats`. -/
structure ContextModifications where
  newActiveBeats : List Str
  completedBeats : List Str
  discoveredCharacters : List Str
  knownLocations : List Str
  storyFlags : List (Str × Bool)
deriving DecidableEq, Repr

/-- Model of `TriggerResult`. -/
structure TriggerResult where
  triggeredBeats : List StoryBeatData
  contextModifications : ContextModifications
  narrativeHints : List Str
  urgentActions : List Str
deriving DecidableEq, Repr

/-- The `actionTypeMap` of `matchesActionType`. -/
def actionTypeMap : List (Str × List Str) :=
  [("exploration".toList,
    ["look".toList, "search".toList, "examine".toList, "investigate".toList,
     "observe".toList]),
   ("dialogue".toList,
    ["speak".toList, "talk".toList, "ask".toList, "call".toList, "say".toList]),
   ("decision".toList,
    ["go".toList, "move".toList, "enter".toList, "take".toList, "choose".toList]),
   ("combat".toList,
    ["attack".toList, "fight".toList, "defend".toList, "cast".toList])]

/-- Model of `matchesActionType(trigger, actionType)`. -/
def matchesActionType (trigger actionType : Str) : Bool :=
  let triggerLower := toLowerStr trigger
  let actionTypeLower := toLowerStr actionType
  match lookupAssoc actionTypeLower actionTypeMap with
  | some keywords => keywords.any (fun keyword => containsSub triggerLower keyword)
  | none => false

/-- The synonym table of `semanticActionMatch`. -/
def synonymTable : List (Str × List Str) :=
  [("look".toList,
    ["examine".toList, "observe".toList, "inspect".toList, "study".toList]),
   ("search".toList,
    ["look for".toList, "find".toList, "seek".toList, "hunt".toList]),
   ("speak".toList,
    ["talk".toList, "say".toList, "tell".toList, "ask".toList]),
   ("move".toList,
    ["go".toList, "walk".toList, "travel".toList, "proceed".toList]),
   ("take".toList,
    ["grab".toList, "pick up".toList, "collect".toList, "get".toList])]

/-- Model of `semanticActionMatch(trigger, action)` (the trigger is matched with its
original casing, exactly as in the source). -/
def semanticActionMatch (trigger action : Str) : Bool :=
  synonymTable.any (fun kv =>
    containsSub trigger kv.1 && kv.2.any (fun synonym => containsSub action synonym))

/-- Model of `matchesActionTriggers(triggers, playerAction, actionType)`: direct
substring containment in either direction, or an action-type keyword-class
match, or a synonym match.  (An absent `actionType` skips the type match;
an empty one behaves identically because the map has no empty key.) -/
def matchesActionTriggers (triggers : List Str) (playerAction : Str)
    (actionType : Option Str) : Bool :=
  let actionLower := toLowerStr playerAction
  triggers.any (fun trigger =>
    let triggerLower := toLowerStr trigger
    containsSub actionLower triggerLower || containsSub triggerLower actionLower ||
    (match actionType with
     | some a => matchesActionType trigger a
     | none => false) ||
    semanticActionMatch trigger actionLower)

/-- Model of `matchesDialogueTriggers(triggers, playerAction)`. -/
def matchesDialogueTriggers (triggers : List Str) (playerAction : Str) : Bool :=
  let actionLower := toLowerStr playerAction
  triggers.any (fun trigger =>
    let triggerLower := toLowerStr trigger
    (containsSub triggerLower ("searching".toList) &&
      containsSub actionLower ("search".toList)) ||
    (containsSub triggerLower ("crystal".toList) &&
      containsSub actionLower ("crystal".toList)) ||
    (containsSub triggerLower ("lost".toList) &&
      (containsSub actionLower ("lost".toList) ||
       containsSub actionLower ("confused".toList))) ||
    containsSub actionLower triggerLower)

/-- Model of `extractCharacterIdFromBeat(beat)`: fixed substring table over the
lowercased beat id. -/
def extractCharacterIdFromBeat (beat : StoryBeatData) : Option Str :=
  let beatIdLower := toLowerStr beat.id
  if containsSub beatIdLower ("whiskers".toList) then some ("whiskers".toList)
  else if containsSub beatIdLower ("thornwick".toList) then some ("thornwick".toList)
  else if containsSub beatIdLower ("elder_oak".toList) then some ("elder_oak".toList)
  else none

/-- Model of `extractLocationIdFromBeat(beat)`: fixed substring table over the
lowercased description. -/
def extractLocationIdFromBeat (beat : StoryBeatData) : Option Str :=
  let description := toLowerStr beat.description
  if containsSub description ("shadow vale".toList) then some ("shadow_vale".toList)
  else if containsSub description ("crystal chamber".toList) then
    some ("crystal_chamber".toList)
  else if containsSub description ("forgotten glade".toList) then
    some ("forgotten_glade".toList)
  else none

/-- Model of `checkLocationBasedTriggers(beat, storyState, playerAction)` (the
player action is tested with its original casing, as in the source). -/
def checkLocationBasedTriggers (beat : StoryBeatData) (s : StoryState)
    (playerAction : Str) : Bool :=
  if beat.id = "elder_oak_wisdom".toList then
    decide (s.currentLocation = "whispering_woods".toList) &&
    (containsSub playerAction ("guidance".toList) ||
     containsSub playerAction ("wisdom".toList) ||
     containsSub playerAction ("help".toList) ||
     containsSub playerAction ("advice".toList))
  else true

/-- Model of `shouldTriggerBeat(beat, storyState, playerAction, actionType)`. -/
def shouldTriggerBeat (beat : StoryBeatData) (s : StoryState) (playerAction : Str)
    (actionType : Option Str) : Bool :=
  if decide (beat.id ∈ s.completedBeats) && !beat.repeatable then false
  else if (match beat.prerequisites with
    | some prereqs => decide (0 < prereqs.length) &&
        !(prereqs.all (fun prereq => decide (prereq ∈ s.completedBeats) ||
            decide (lookupAssoc prereq s.storyFlags = some true)))
    | none => false) then false
  else if (match beat.triggers with
    | some triggers => decide (0 < triggers.length) &&
        !(matchesActionTriggers triggers playerAction actionType)
    | none => false) then false
  else if (match beat.dialogue_triggers with
    | some triggers => decide (0 < triggers.length) &&
        !(matchesDialogueTriggers triggers playerAction)
    | none => false) then false
  else if decide (beat.type = BeatType.character_introduction) &&
    (match extractCharacterIdFromBeat beat with
     | some characterId => decide (characterId ∈ s.discoveredCharacters)
     | none => false) then false
  else if beat.type = BeatType.exposition_lore then
    checkLocationBasedTriggers beat s playerAction
  else true

/-- Model of `applyBeatConsequences(beat, contextModifications, storyState)`.  The
four mutation blocks of the source each touch a different field of the
accumulator, so the record is rebuilt field by field. -/
def applyBeatConsequences (beat : StoryBeatData) (m : ContextModifications) :
    ContextModifications :=
  { discoveredCharacters :=
      if beat.type = BeatType.character_introduction then
        match extractCharacterIdFromBeat beat with
        | some characterId =>
          if characterId ∈ m.discoveredCharacters then m.discoveredCharacters
          else m.discoveredCharacters ++ [characterId]
        | none => m.discoveredCharacters
      else m.discoveredCharacters
    knownLocations :=
      if containsSub beat.description ("location".toList) = true ∨
          beat.type = BeatType.exposition_lore then
        match extractLocationIdFromBeat beat with
        | some locationId =>
          if locationId ∈ m.knownLocations then m.knownLocations
          else m.knownLocations ++ [locationId]
        | none => m.knownLocations
      else m.knownLocations
    newActiveBeats :=
      if beat.repeatable then
        if beat.id ∈ m.newActiveBeats then m.newActiveBeats
        else m.newActiveBeats ++ [beat.id]
      else m.newActiveBeats.filter (fun i => decide (i ≠ beat.id))
    completedBeats :=
      if beat.repeatable then m.completedBeats else m.completedBeats ++ [beat.id]
    storyFlags :=
      match beat.choices with
      | some choices =>
        choices.foldl (fun flags choice =>
          match choice.leads_to with
          | some lt => setAssoc (("can_access_".toList) ++ lt) true flags
          | none => flags) m.storyFlags
      | none => m.storyFlags }

/-- Model of `generateNarrativeHints(beats, storyState)` (`story_significance` is
pushed when the string is truthy, i.e. nonempty). -/
def generateNarrativeHints (beats : List StoryBeatData) : List Str :=
  beats.foldl (fun hints beat =>
    let hints := if beat.story_significance ≠ [] then
        hints ++ [("Story Significance: ".toList) ++ beat.story_significance]
      else hints
    let hints := match beat.key_information_revealed with
      | some info => hints ++ [("Key Information: ".toList) ++
          (List.intercalate (", ".toList) info)]
      | none => hints
    let hints := match beat.wisdom_shared with
      | some wisdom => hints ++ [("Wisdom Available: ".toList) ++
          (List.intercalate (", ".toList) wisdom)]
      | none => hints
    hints) []

/-- Model of `generateUrgentActions(beats, storyState)`. -/
def generateUrgentActions (beats : List StoryBeatData) : List Str :=
  beats.foldl (fun urgent beat =>
    let urgent := if beat.type = BeatType.major_conflict then
        urgent ++ [("CONFLICT: Major confrontation is imminent".toList)] else urgent
    let urgent := if beat.type = BeatType.climax then
        urgent ++ [("CLIMAX: This is a crucial story moment".toList)] else urgent
    let urgent := if beat.multiple_outcomes then
        urgent ++ [("CHOICE: Multiple story paths available".toList)] else urgent
    let urgent := match beat.final_choices with
      | some _ => urgent ++ [("FINAL: Story conclusion depends on this choice".toList)]
      | none => urgent
    urgent) []

/-- The accumulator `analyzeAndTriggerBeats` seeds from the current state. -/
def initialMods (s : StoryState) : ContextModifications :=
  { newActiveBeats := s.activeBeats
    completedBeats := s.completedBeats
    discoveredCharacters := s.discoveredCharacters
    knownLocations := s.knownLocations
    storyFlags := s.storyFlags }

/-- The partial update carrying the accumulated mutations of all
triggered beats. -/
def modsToPartial (m : ContextModifications) : StoryStatePartial :=
  { activeBeats := some m.newActiveBeats
    completedBeats := some m.completedBeats
    discoveredCharacters := some m.discoveredCharacters
    knownLocations := some m.knownLocations
    storyFlags := some m.storyFlags }

/-- Model of `analyzeAndTriggerBeats(storyId, sessionId, playerAction, actionType)`.
The story's beat definitions, loaded from the per-story JSON file by the
external corpus loader, are passed in as `storyBeats`.  Every triggered
beat's consequences are folded into one accumulator, and the store is
written at most once. -/
def analyzeAndTriggerBeats (store : Store) (storyId sessionId playerAction : Str)
    (actionType : Option Str) (storyBeats : List StoryBeatData) (now : Nat) :
    TriggerResult × Store :=
  let (storyState, store1) := getOrCreateStoryState store storyId sessionId
    defaultInitialLocation now
  let triggeredBeats := storyBeats.filter
    (fun beat => shouldTriggerBeat beat storyState playerAction actionType)
  let contextModifications := triggeredBeats.foldl
    (fun m beat => applyBeatConsequences beat m) (initialMods storyState)
  let narrativeHints := generateNarrativeHints triggeredBeats
  let urgentActions := generateUrgentActions triggeredBeats
  let store2 := if 0 < triggeredBeats.length then
      (updateStoryState store1 storyId sessionId (modsToPartial contextModifications)
        now).2
    else store1
  ({ triggeredBeats := triggeredBeats
     contextModifications := contextModifications
     narrativeHints := narrativeHints
     urgentActions := urgentActions }, store2)

/-! ## Pacing classifier: `updateTension` (`enhancedStoryPromptService.ts`) -/

/-- The tension levels. -/
inductive Tension where
  | low | medium | high | critical
deriving DecidableEq, Repr

/-- The high-tension keyword set. -/
def highTensionWords : List Str :=
  ["attack".toList, "danger".toList, "threat".toList, "enemy".toList, "fear".toList,
   "panic".toList, "urgent".toList, "quickly".toList, "suddenly".toList]

/-- The medium-tension keyword set. -/
def mediumTensionWords : List Str :=
  ["suspicious".toList, "mysterious".toList, "strange".toList, "unsettling".toList,
   "concerning".toList, "worried".toList]

/-- The low-tension keyword set. -/
def lowTensionWords : List Str :=
  ["peaceful".toList, "calm".toList, "safe".toList, "rest".toList,
   "comfortable".toList, "relaxed".toList]

/-- The count of high-tension keywords occurring in the lowercased
narrative. -/
def highTensionCount (narrative : Str) : Nat :=
  (highTensionWords.filter (fun word => containsSub (toLowerStr narrative) word)).length

/-- The count of medium-tension keywords occurring in the lowercased
narrative. -/
def mediumTensionCount (narrative : Str) : Nat :=
  (mediumTensionWords.filter (fun word => containsSub (toLowerStr narrative) word)).length

/-- The count of low-tension keywords occurring in the lowercased
narrative. -/
def lowTensionCount (narrative : Str) : Nat :=
  (lowTensionWords.filter (fun word => containsSub (toLowerStr narrative) word)).length

/-- Model of `updateTension(narrative)`: re-derive the tension with precedence
high > medium > low, keeping the current tension when no keyword occurs. -/
def updateTension (narrative : Str) (tension : Tension) : Tension :=
  if 0 < highTensionCount narrative then Tension.high
  else if 0 < mediumTensionCount narrative then Tension.medium
  else if 0 < lowTensionCount narrative then Tension.low
  else tension

/-! ## Predicates and example data used by the verification -/

/-- The stored-state invariant of the specification: a beat id appears in
at most one of `completedBeats` and `activeBeats`. -/
def BeatsDisjoint (s : StoryState) : Prop :=
  ∀ x ∈ s.completedBeats, x ∉ s.activeBeats

/-- No repeatable beat of the corpus is recorded as completed (the
companion invariant that makes `BeatsDisjoint` inductive under
`analyzeAndTriggerBeats`). -/
def NoRepeatableCompleted (beats : List StoryBeatData) (s : StoryState) : Prop :=
  ∀ b ∈ beats, b.repeatable = true → b.id ∉ s.completedBeats

/-- The invariant carried through the consequence fold: the accumulated
completed and active lists are disjoint, and no repeatable beat of the
corpus is recorded as completed. -/
def ModsInvariant (beats : List StoryBeatData) (m : ContextModifications) : Prop :=
  (∀ x ∈ m.completedBeats, x ∉ m.newActiveBeats) ∧
  (∀ b ∈ beats, b.repeatable = true → b.id ∉ m.completedBeats)

/-- The query-scored entries of `searchStoryContextEnhanced`, before
filtering and sorting. -/
def searchQueryScored (store : Store) (storyId sessionId query : Str)
    (documents : List StoryDocument) (now : Nat) : List EnhancedContext :=
  documents.map (scoreDocument
    (getOrCreateStoryState store storyId sessionId defaultInitialLocation now).1
    (extractKeywords (toLowerStr query)))

/-- The query-scored phase of `searchStoryContextEnhanced`: positive-total
entries, stable-sorted descending by total score (`maxResults` truncation
is applied on top of this list). -/
def searchQueryPhase (store : Store) (storyId sessionId query : Str)
    (documents : List StoryDocument) (now : Nat) : List EnhancedContext :=
  sortByTotalDesc ((searchQueryScored store storyId sessionId query documents now).filter
    (fun r => decide (0 < getTotalScore r)))

/-- Example corpus document: a lore entry with story weight 1. -/
def exLoreDoc : StoryDocument :=
  { content := "x".toList
    metadata := { type := "lore".toList, id := "l".toList, name := none, title := none,
                  category := "lore".toList, connections := none, storyWeight := some 1 } }

/-- Example corpus document: a character whose content mentions the query
word twice. -/
def exDocR : StoryDocument :=
  { content := "whiskers whiskers".toList
    metadata := { type := "character".toList, id := "whiskers".toList, name := none,
                  title := none, category := "char".toList, connections := none,
                  storyWeight := none } }

/-- Example corpus document: a character unrelated to the query whose
content mentions its own id. -/
def exDocE1 : StoryDocument :=
  { content := "e".toList
    metadata := { type := "character".toList, id := "e".toList, name := none,
                  title := none, category := "char".toList, connections := none,
                  storyWeight := none } }

/-- Example corpus document: a location with story weight 5 and content
unrelated to the query. -/
def exDocE2 : StoryDocument :=
  { content := "q".toList
    metadata := { type := "location".toList, id := "z".toList, name := none,
                  title := none, category := "loc".toList, connections := none,
                  storyWeight := some 5 } }

/-- Example beat definition: repeatable, with a `look` trigger and no
prerequisites. -/
def exBeatRepeatable : StoryBeatData :=
  { id := "rb".toList, name := "rb".toList, type := BeatType.decision_point,
    description := "d".toList, triggers := some [("look".toList)], prerequisites := none,
    choices := none, dialogue_triggers := none, key_information_revealed := none,
    story_significance := "s".toList, repeatable := true, multiple_outcomes := false,
    final_choices := none, wisdom_shared := none }

/-- Example beat definition: non-repeatable, with a `look` trigger. -/
def exBeatNonRepeatable : StoryBeatData :=
  { id := "nb".toList, name := "nb".toList, type := BeatType.decision_point,
    description := "d".toList, triggers := some [("look".toList)], prerequisites := none,
    choices := none, dialogue_triggers := none, key_information_revealed := none,
    story_significance := "s".toList, repeatable := false, multiple_outcomes := false,
    final_choices := none, wisdom_shared := none }

/-- Example store holding the fresh default state of session `(a, b)`. -/
def exStoreA : Store :=
  (getOrCreateStoryState [] ("a".toList) ("b".toList) defaultInitialLocation 0).2

/-- Example store: the player choice `rb` is recorded on the fresh session
(which completes `rb` unconditionally). -/
def exStoreB : Store :=
  recordPlayerChoice exStoreA ("a".toList) ("b".toList) ("rb".toList) ("c".toList)
    ("q".toList) 1

/-- Example store: after `exStoreB`, the repeatable beat `rb` is triggered
by the action `look`. -/
def exStoreC : Store :=
  (analyzeAndTriggerBeats exStoreB ("a".toList) ("b".toList) ("look".toList) none
    [exBeatRepeatable] 2).2

/-- The stored state read back from `exStoreC`. -/
def exStateC : StoryState :=
  (getOrCreateStoryState exStoreC ("a".toList) ("b".toList) defaultInitialLocation 3).1

/-- Example state with the non-repeatable beat `nb` already completed. -/
def exStateDone : StoryState :=
  { freshState ("a".toList) ("b".toList) defaultInitialLocation 0 with
    completedBeats := [("nb".toList)] }

/-- Example store holding `exStateDone`. -/
def exStoreDone : Store := [(stateKey ("a".toList) ("b".toList), exStateDone)]

/-- Example partial update setting only `currentLocation`. -/
def exPartialLocation : StoryStatePartial := { currentLocation := some ("x".toList) }

/-! ## Helper lemmas about the store -/

theorem lookupAssoc_setAssoc_self {α : Type} (key : Str) (v : α) (l : List (Str × α)) :
    lookupAssoc key (setAssoc key v l) = some v := by
  induction l with
  | nil => simp [setAssoc, lookupAssoc]
  | cons kv rest ih =>
    obtain ⟨k, w⟩ := kv
    by_cases hk : k = key
    · simp [setAssoc, lookupAssoc, hk]
    · simp [setAssoc, lookupAssoc, hk, ih]

theorem getOrCreate_of_lookup {store : Store} {storyId sessionId : Str} {s : StoryState}
    (h : lookupAssoc (stateKey storyId sessionId) store = some s)
    (initialLocation : Str) (now : Nat) :
    getOrCreateStoryState store storyId sessionId initialLocation now = (s, store) := by
  simp [getOrCreateStoryState, h]

theorem lookup_getOrCreate_post (store : Store) (storyId sessionId initialLocation : Str)
    (now : Nat) :
    lookupAssoc (stateKey storyId sessionId)
      (getOrCreateStoryState store storyId sessionId initialLocation now).2 =
    some (getOrCreateStoryState store storyId sessionId initialLocation now).1 := by
  unfold getOrCreateStoryState
  cases h : lookupAssoc (stateKey storyId sessionId) store with
  | none => simp [h, lookupAssoc_setAssoc_self]
  | some s => simp [h]

/-! ## Helper lemmas about the stable sort -/

theorem perm_insertByTotalDesc (x : EnhancedContext) (l : List EnhancedContext) :
    (insertByTotalDesc x l).Perm (x :: l) := by
  induction l with
  | nil => simp [insertByTotalDesc]
  | cons y ys ih =>
    unfold insertByTotalDesc
    split
    · exact ((ih.cons y).trans (List.Perm.swap x y ys))
    · exact List.Perm.refl _

theorem perm_sortByTotalDesc (l : List EnhancedContext) :
    (sortByTotalDesc l).Perm l := by
  induction l with
  | nil => simp [sortByTotalDesc]
  | cons x xs ih =>
    exact (perm_insertByTotalDesc x (sortByTotalDesc xs)).trans (ih.cons x)

theorem mem_insertByTotalDesc {a x : EnhancedContext} {l : List EnhancedContext} :
    a ∈ insertByTotalDesc x l ↔ a ∈ x :: l :=
  (perm_insertByTotalDesc x l).mem_iff

theorem pairwise_insertByTotalDesc {x : EnhancedContext} {l : List EnhancedContext}
    (h : l.Pairwise (fun a b => getTotalScore b ≤ getTotalScore a)) :
    (insertByTotalDesc x l).Pairwise (fun a b => getTotalScore b ≤ getTotalScore a) := by
  induction l with
  | nil => simp [insertByTotalDesc]
  | cons y ys ih =>
    unfold insertByTotalDesc
    split
    · rename_i hxy
      refine List.Pairwise.cons ?_ (ih h.tail)
      intro z hz
      rcases List.mem_cons.mp (mem_insertByTotalDesc.mp hz) with hz | hz
      · subst hz; exact le_of_lt hxy
      · exact List.rel_of_pairwise_cons h hz
    · rename_i hxy
      push_neg at hxy
      refine List.Pairwise.cons ?_ h
      intro z hz
      rcases List.mem_cons.mp hz with hz | hz
      · subst hz; exact hxy
      · exact le_trans (List.rel_of_pairwise_cons h hz) hxy

theorem pairwise_sortByTotalDesc (l : List EnhancedContext) :
    (sortByTotalDesc l).Pairwise (fun a b => getTotalScore b ≤ getTotalScore a) := by
  induction l with
  | nil => simp [sortByTotalDesc]
  | cons x xs ih => exact pairwise_insertByTotalDesc ih

theorem filter_insertByTotalDesc (k : Int) (x : EnhancedContext)
    (l : List EnhancedContext) :
    (insertByTotalDesc x l).filter (fun r => decide (getTotalScore r = k)) =
    (x :: l).filter (fun r => decide (getTotalScore r = k)) := by
  induction l with
  | nil => rfl
  | cons y ys ih =>
    unfold insertByTotalDesc
    split
    · rename_i hxy
      by_cases hx : getTotalScore x = k
      · have hy : ¬ getTotalScore y = k := by
          intro hy; rw [hx, hy] at hxy; exact lt_irrefl k hxy
        simp only [List.filter_cons]
        simp only [decide_eq_true_eq] at *
        simp [hx, hy, ih, List.filter_cons]
      · by_cases hy : getTotalScore y = k
        · simp only [List.filter_cons]
          simp [hx, hy, ih, List.filter_cons]
        · simp only [List.filter_cons]
          simp [hx, hy, ih, List.filter_cons]
    · rfl

theorem filter_sortByTotalDesc (k : Int) (l : List EnhancedContext) :
    (sortByTotalDesc l).filter (fun r => decide (getTotalScore r = k)) =
    l.filter (fun r => decide (getTotalScore r = k)) := by
  induction l with
  | nil => rfl
  | cons x xs ih =>
    calc (sortByTotalDesc (x :: xs)).filter (fun r => decide (getTotalScore r = k))
        = (x :: sortByTotalDesc xs).filter (fun r => decide (getTotalScore r = k)) :=
          filter_insertByTotalDesc k x (sortByTotalDesc xs)
      _ = (x :: xs).filter (fun r => decide (getTotalScore r = k)) := by
          by_cases hx : getTotalScore x = k <;> simp [List.filter_cons, hx, ih]

/-! ## Helper lemmas about context expansion -/

theorem expandStep_suffix (s : StoryState) (acc : List EnhancedContext × List Str)
    (docs : List StoryDocument) :
    ∃ t, (expandStep s acc docs).1 = acc.1 ++ t ∧ ∀ e ∈ t, e.relevanceScore = 0 := by
  induction docs generalizing acc with
  | nil => exact ⟨[], by simp [expandStep], by simp⟩
  | cons d ds ih =>
    show ∃ t, (expandStep s _ ds).1 = _ ∧ _
    by_cases hcond : d.metadata.id ∉ acc.2 ∧ acc.1.length < 12
    · obtain ⟨t', ht', hrel⟩ :=
        ih (acc.1 ++ [mkExpanded d s], acc.2 ++ [d.metadata.id])
      refine ⟨mkExpanded d s :: t', ?_, ?_⟩
      · simp only [expandStep, List.foldl_cons, if_pos hcond] at *
        simpa [List.append_assoc] using ht'
      · intro e he
        rcases List.mem_cons.mp he with he | he
        · subst he; rfl
        · exact hrel e he
    · obtain ⟨t', ht', hrel⟩ := ih acc
      refine ⟨t', ?_, hrel⟩
      simp only [expandStep, List.foldl_cons, if_neg hcond] at *
      exact ht'

theorem expandStep_length (s : StoryState) (acc : List EnhancedContext × List Str)
    (docs : List StoryDocument) :
    (expandStep s acc docs).1.length ≤ max acc.1.length 12 := by
  induction docs generalizing acc with
  | nil => simp [expandStep]
  | cons d ds ih =>
    show (expandStep s _ ds).1.length ≤ _
    by_cases hcond : d.metadata.id ∉ acc.2 ∧ acc.1.length < 12
    · have h1 := ih (acc.1 ++ [mkExpanded d s], acc.2 ++ [d.metadata.id])
      simp only [expandStep, List.foldl_cons, if_pos hcond] at *
      refine le_trans h1 ?_
      have : acc.1.length + 1 ≤ 12 := hcond.2
      simp only [List.length_append, List.length_cons, List.length_nil]
      omega
    · have h1 := ih acc
      simp only [expandStep, List.foldl_cons, if_neg hcond] at *
      exact h1

theorem expandRelatedContext_suffix (results : List EnhancedContext)
    (allDocuments : List StoryDocument) (s : StoryState) :
    ∃ t, expandRelatedContext results allDocuments s = results ++ t ∧
      ∀ e ∈ t, e.relevanceScore = 0 := by
  have main : ∀ (rs : List EnhancedContext) (acc : List EnhancedContext × List Str),
      ∃ t, (rs.foldl (fun a r => expandStep s a (findRelatedDocuments r allDocuments))
        acc).1 = acc.1 ++ t ∧ ∀ e ∈ t, e.relevanceScore = 0 := by
    intro rs
    induction rs with
    | nil => exact fun acc => ⟨[], by simp, by simp⟩
    | cons r rs ih =>
      intro acc
      obtain ⟨t1, ht1, hrel1⟩ :=
        expandStep_suffix s acc (findRelatedDocuments r allDocuments)
      obtain ⟨t2, ht2, hrel2⟩ := ih (expandStep s acc (findRelatedDocuments r allDocuments))
      refine ⟨t1 ++ t2, ?_, ?_⟩
      · simp only [List.foldl_cons, ht2, ht1, List.append_assoc]
      · intro e he
        rcases List.mem_append.mp he with he | he
        · exact hrel1 e he
        · exact hrel2 e he
  obtain ⟨t, ht, hrel⟩ := main results (results, results.map (fun r => r.metadata.id))
  exact ⟨t, by simpa [expandRelatedContext] using ht, hrel⟩

theorem expandRelatedContext_length (results : List EnhancedContext)
    (allDocuments : List StoryDocument) (s : StoryState) :
    (expandRelatedContext results allDocuments s).length ≤ max results.length 12 := by
  have main : ∀ (rs : List EnhancedContext) (acc : List EnhancedContext × List Str),
      (rs.foldl (fun a r => expandStep s a (findRelatedDocuments r allDocuments))
        acc).1.length ≤ max acc.1.length 12 := by
    intro rs
    induction rs with
    | nil => intro acc; simp
    | cons r rs ih =>
      intro acc
      have h2 := ih (expandStep s acc (findRelatedDocuments r allDocuments))
      have h1 := expandStep_length s acc (findRelatedDocuments r allDocuments)
      simp only [List.foldl_cons]
      exact le_trans h2 (max_le h1 (le_max_right _ _))
  simpa [expandRelatedContext] using
    main results (results, results.map (fun r => r.metadata.id))

/-! ## Helper lemmas about keyword extraction -/

theorem splitWsGo_sound (s : Str) :
    ∀ (acc w : Str), w ∈ splitWsGo s acc → w ≠ [] ∧ ∀ c ∈ w, c ∈ acc ∨ c ∈ s := by
  induction s with
  | nil =>
    intro acc w hw
    unfold splitWsGo at hw
    split at hw
    · simp at hw
    · rename_i hacc
      rcases List.mem_cons.mp hw with hw | hw
      · subst hw
        refine ⟨by simpa using fun h => hacc (by simp [h]), ?_⟩
        intro c hc
        exact Or.inl (List.mem_reverse.mp hc)
      · simp at hw
  | cons c₀ rest ih =>
    intro acc w hw
    unfold splitWsGo at hw
    split at hw
    · split at hw
      · obtain ⟨hne, hmem⟩ := ih [] w hw
        refine ⟨hne, fun c hc => ?_⟩
        rcases hmem c hc with h | h
        · simp at h
        · exact Or.inr (List.mem_cons_of_mem _ h)
      · rename_i hacc
        rcases List.mem_cons.mp hw with hw | hw
        · subst hw
          refine ⟨by simpa using fun h => hacc (by simp [h]), ?_⟩
          intro c hc
          exact Or.inl (List.mem_reverse.mp hc)
        · obtain ⟨hne, hmem⟩ := ih [] w hw
          refine ⟨hne, fun c hc => ?_⟩
          rcases hmem c hc with h | h
          · simp at h
          · exact Or.inr (List.mem_cons_of_mem _ h)
    · obtain ⟨hne, hmem⟩ := ih (c₀ :: acc) w hw
      refine ⟨hne, fun c hc => ?_⟩
      rcases hmem c hc with h | h
      · rcases List.mem_cons.mp h with h | h
        · exact Or.inr (h ▸ List.mem_cons_self _ _)
        · exact Or.inl h
      · exact Or.inr (List.mem_cons_of_mem _ h)

theorem splitWs_sound {s w : Str} (hw : w ∈ splitWs s) :
    w ≠ [] ∧ ∀ c ∈ w, c ∈ s := by
  obtain ⟨hne, hmem⟩ := splitWsGo_sound s [] w hw
  refine ⟨hne, fun c hc => ?_⟩
  rcases hmem c hc with h | h
  · simp at h
  · exact h

/-- A character with no alphabetic reading is untouched by lowercasing. -/
theorem toLowerChar_eq_self {c : Char} (h : ¬ ('A' ≤ c ∧ c ≤ 'Z')) :
    toLowerChar c = c := by
  simp [toLowerChar, h]

/-- On a query without alphabetic characters (empty or punctuation-only),
keyword extraction yields no tokens. -/
theorem extractKeywords_eq_nil_of_no_alpha {q : Str}
    (hq : ∀ c ∈ q, ¬ (('a' ≤ c ∧ c ≤ 'z') ∨ ('A' ≤ c ∧ c ≤ 'Z'))) :
    extractKeywords q = [] := by
  unfold extractKeywords
  rw [List.filter_eq_nil_iff]
  intro w hw
  obtain ⟨hw1, _⟩ := List.mem_filter.mp hw
  obtain ⟨hne, hmem⟩ := splitWs_sound hw1
  obtain ⟨c, hc⟩ := List.exists_mem_of_ne_nil w hne
  have hcq : c ∈ toLowerStr q := hmem c hc
  obtain ⟨c₀, hc₀, hcl⟩ := List.mem_map.mp hcq
  have hc₀q := hq c₀ hc₀
  have hceq : c = c₀ := by
    rw [← hcl]
    exact toLowerChar_eq_self (fun h => hc₀q (Or.inr h))
  have hcna : ¬ ('a' ≤ c ∧ c ≤ 'z') := hceq ▸ fun h => hc₀q (Or.inl h)
  simp only [allLowerAlpha, Bool.and_eq_true, List.all_eq_true, decide_eq_true_eq,
    not_and, not_forall]
  intro _
  exact ⟨c, hc, by simpa using hcna⟩

/-! ## Helper lemmas about the beat-consequence accumulator -/

theorem applyBeatConsequences_invariant {beats : List StoryBeatData}
    (hnd : (beats.map StoryBeatData.id).Nodup) {b : StoryBeatData} (hb : b ∈ beats)
    {m : ContextModifications} (hm : ModsInvariant beats m) :
    ModsInvariant beats (applyBeatConsequences b m) := by
  obtain ⟨hdisj, hnorep⟩ := hm
  by_cases hrep : b.repeatable
  · constructor
    · intro x hx
      simp only [applyBeatConsequences, hrep, if_true] at hx ⊢
      by_cases hmem : b.id ∈ m.newActiveBeats
      · simp only [if_pos hmem]
        exact hdisj x hx
      · simp only [if_neg hmem, List.mem_append, List.mem_singleton]
        rintro (h | h)
        · exact hdisj x hx h
        · exact hnorep b hb hrep (h ▸ hx)
    · intro b' hb' hrep'
      simp only [applyBeatConsequences, hrep, if_true]
      exact hnorep b' hb' hrep'
  · have hrepf : b.repeatable = false := by simpa using hrep
    constructor
    · intro x hx
      simp only [applyBeatConsequences, hrepf, Bool.false_eq_true, if_false,
        List.mem_append, List.mem_singleton] at hx ⊢
      intro hxa
      obtain ⟨hxm, hxne⟩ := List.mem_filter.mp hxa
      rcases hx with hx | hx
      · exact hdisj x hx hxm
      · have hxne' : x ≠ b.id := by simpa using hxne
        exact hxne' hx
    · intro b' hb' hrep'
      simp only [applyBeatConsequences, hrepf, Bool.false_eq_true, if_false,
        List.mem_append, List.mem_singleton]
      rintro (h | h)
      · exact hnorep b' hb' hrep' h
      · have : b' = b := List.inj_on_of_nodup_map hnd hb' hb h
        rw [this, hrepf] at hrep'
        exact Bool.false_ne_true hrep'

theorem foldl_applyBeatConsequences_invariant {beats : List StoryBeatData}
    (hnd : (beats.map StoryBeatData.id).Nodup) :
    ∀ (ts : List StoryBeatData), (∀ b ∈ ts, b ∈ beats) →
    ∀ (m : ContextModifications), ModsInvariant beats m →
    ModsInvariant beats (ts.foldl (fun m b => applyBeatConsequences b m) m) := by
  intro ts
  induction ts with
  | nil => intro _ m hm; simpa using hm
  | cons t ts ih =>
    intro hts m hm
    simp only [List.foldl_cons]
    exact ih (fun b hb => hts b (List.mem_cons_of_mem _ hb))
      (applyBeatConsequences t m)
      (applyBeatConsequences_invariant hnd (hts t (List.mem_cons_self _ _)) hm)

/-! ## Shape lemmas for `analyzeAndTriggerBeats` over a stored state -/

theorem analyze_triggered_eq {store : Store} {storyId sessionId : Str} {s : StoryState}
    (hs : lookupAssoc (stateKey storyId sessionId) store = some s)
    (playerAction : Str) (actionType : Option Str) (storyBeats : List StoryBeatData)
    (now : Nat) :
    (analyzeAndTriggerBeats store storyId sessionId playerAction actionType storyBeats
      now).1.triggeredBeats =
    storyBeats.filter (fun beat => shouldTriggerBeat beat s playerAction actionType) := by
  simp only [analyzeAndTriggerBeats, getOrCreate_of_lookup hs]

theorem analyze_mods_eq {store : Store} {storyId sessionId : Str} {s : StoryState}
    (hs : lookupAssoc (stateKey storyId sessionId) store = some s)
    (playerAction : Str) (actionType : Option Str) (storyBeats : List StoryBeatData)
    (now : Nat) :
    (analyzeAndTriggerBeats store storyId sessionId playerAction actionType storyBeats
      now).1.contextModifications =
    (storyBeats.filter (fun beat => shouldTriggerBeat beat s playerAction
      actionType)).foldl (fun m beat => applyBeatConsequences beat m) (initialMods s) := by
  simp only [analyzeAndTriggerBeats, getOrCreate_of_lookup hs]

theorem analyze_store_eq {store : Store} {storyId sessionId : Str} {s : StoryState}
    (hs : lookupAssoc (stateKey storyId sessionId) store = some s)
    (playerAction : Str) (actionType : Option Str) (storyBeats : List StoryBeatData)
    (now : Nat) :
    (analyzeAndTriggerBeats store storyId sessionId playerAction actionType storyBeats
      now).2 =
    (if 0 < (storyBeats.filter (fun beat => shouldTriggerBeat beat s playerAction
        actionType)).length then
      setAssoc (stateKey storyId sessionId)
        (applyPartial s (modsToPartial ((storyBeats.filter
          (fun beat => shouldTriggerBeat beat s playerAction actionType)).foldl
          (fun m beat => applyBeatConsequences beat m) (initialMods s))) now) store
    else store) := by
  simp only [analyzeAndTriggerBeats, updateStoryState, getOrCreate_of_lookup hs]

theorem analyze_of_absent {store : Store} {storyId sessionId : Str}
    (h : lookupAssoc (stateKey storyId sessionId) store = none)
    (playerAction : Str) (actionType : Option Str) (storyBeats : List StoryBeatData)
    (now : Nat) :
    analyzeAndTriggerBeats store storyId sessionId playerAction actionType storyBeats
      now =
    analyzeAndTriggerBeats
      (setAssoc (stateKey storyId sessionId)
        (freshState storyId sessionId defaultInitialLocation now) store)
      storyId sessionId playerAction actionType storyBeats now := by
  have h1 : getOrCreateStoryState store storyId sessionId defaultInitialLocation now =
      (freshState storyId sessionId defaultInitialLocation now,
       setAssoc (stateKey storyId sessionId)
         (freshState storyId sessionId defaultInitialLocation now) store) := by
    simp [getOrCreateStoryState, h]
  have h2 := getOrCreate_of_lookup
    (lookupAssoc_setAssoc_self (stateKey storyId sessionId)
      (freshState storyId sessionId defaultInitialLocation now) store)
    defaultInitialLocation now
  simp only [analyzeAndTriggerBeats, h1, h2]

/-- Core preservation lemma: starting from a stored state satisfying the
disjointness invariants, the state read back after one
`analyzeAndTriggerBeats` still satisfies them. -/
theorem analyze_invariant_core {store : Store} {storyId sessionId : Str} {s : StoryState}
    (hs : lookupAssoc (stateKey storyId sessionId) store = some s)
    (playerAction : Str) (actionType : Option Str) {storyBeats : List StoryBeatData}
    (now now2 : Nat) (loc2 : Str)
    (hnd : (storyBeats.map StoryBeatData.id).Nodup)
    (hdisj : BeatsDisjoint s) (hnorep : NoRepeatableCompleted storyBeats s) :
    BeatsDisjoint (getOrCreateStoryState
      (analyzeAndTriggerBeats store storyId sessionId playerAction actionType storyBeats
        now).2 storyId sessionId loc2 now2).1 ∧
    NoRepeatableCompleted storyBeats (getOrCreateStoryState
      (analyzeAndTriggerBeats store storyId sessionId playerAction actionType storyBeats
        now).2 storyId sessionId loc2 now2).1 := by
  have hmods : ModsInvariant storyBeats
      ((storyBeats.filter (fun beat => shouldTriggerBeat beat s playerAction
        actionType)).foldl (fun m beat => applyBeatConsequences beat m)
        (initialMods s)) :=
    foldl_applyBeatConsequences_invariant hnd _
      (fun b hb => (List.mem_filter.mp hb).1) _ ⟨hdisj, hnorep⟩
  rw [analyze_store_eq hs]
  by_cases htrig : 0 < (storyBeats.filter (fun beat => shouldTriggerBeat beat s
      playerAction actionType)).length
  · rw [if_pos htrig]
    have hread := getOrCreate_of_lookup
      (lookupAssoc_setAssoc_self (stateKey storyId sessionId)
        (applyPartial s (modsToPartial ((storyBeats.filter
          (fun beat => shouldTriggerBeat beat s playerAction actionType)).foldl
          (fun m beat => applyBeatConsequences beat m) (initialMods s))) now) store)
      loc2 now2
    rw [hread]
    constructor
    · intro x hx
      simp only [applyPartial, modsToPartial, Option.getD_some] at hx ⊢
      exact hmods.1 x hx
    · intro b hb hrep
      simp only [applyPartial, modsToPartial, Option.getD_some]
      exact hmods.2 b hb hrep
  · rw [if_neg htrig, getOrCreate_of_lookup hs]
    exact ⟨hdisj, hnorep⟩

/-! ## Claim C1 -/

/-- C1 (counterexample): with 13 positive-scoring documents and
`maxResults = 13`, `searchStoryContextEnhanced` returns 13 entries — the
12-entry cap only limits expansion appends, not the query-scored slice, so
the claim that the result never exceeds 12 entries is false. -/
theorem search_cap_counterexample :
    ¬ ((searchStoryContextEnhanced [] ("a".toList) ("b".toList) []
        (List.replicate 13 exLoreDoc) 13 0).1.length ≤ 12) := by decide

/-- C1 (amended): the search result has at most `max maxResults 12`
entries: the query-scored slice is capped by `maxResults`, and expansion
appends only while the result holds fewer than 12 entries; in particular
the 12-entry bound of the claim does hold whenever `maxResults ≤ 12`. -/
theorem search_length_le_max (store : Store) (storyId sessionId query : Str)
    (documents : List StoryDocument) (maxResults now : Nat) :
    (searchStoryContextEnhanced store storyId sessionId query documents maxResults
      now).1.length ≤ max maxResults 12 := by
  unfold searchStoryContextEnhanced
  refine le_trans (expandRelatedContext_length _ _ _) ?_
  exact max_le (le_trans (List.length_take_le _ _) (le_max_left _ _))
    (le_max_right _ _)

/-! ## Claim C2 -/

/-- C2 (divergence witness): `recordPlayerChoice` pushes the beat id into
`completedBeats` whenever it is absent, with no repeatability check — the
function never consults the beat definition — contradicting its own
comment `Mark beat as completed if it's not repeatable`.  Evaluated at the
id of the repeatable beat `rb` on a fresh session: the choice is recorded
and `majorDecisions` incremented as claimed, but `rb` is completed anyway. -/
theorem recordPlayerChoice_completes_any_beat :
    ((lookupAssoc (stateKey ("a".toList) ("b".toList)) exStoreB).map
      StoryState.completedBeats) = some [("rb".toList)] ∧
    ((lookupAssoc (stateKey ("a".toList) ("b".toList)) exStoreB).map
      (fun s => s.playerChoices.length)) = some 1 ∧
    ((lookupAssoc (stateKey ("a".toList) ("b".toList)) exStoreB).map
      (fun s => s.metadata.majorDecisions)) = some 1 ∧
    ((lookupAssoc (stateKey ("a".toList) ("b".toList)) exStoreB).map
      StoryState.activeBeats) = some [("opening_choice".toList)] := by decide

/-! ## Claim C3 -/

/-- C3 (counterexample): recording a player choice for the repeatable beat
`rb` puts `rb` into `completedBeats`; a subsequent `analyzeAndTriggerBeats`
that triggers `rb` adds it to `activeBeats` while it stays completed, so a
state is reachable in which one beat id is in both lists. -/
theorem beat_in_both_lists_counterexample :
    ("rb".toList) ∈ exStateC.completedBeats ∧ ("rb".toList) ∈ exStateC.activeBeats := by
  decide

/-- C3 (amended): the disjointness invariant is preserved by
`getOrCreateStoryState` and `analyzeAndTriggerBeats` alone.  If every
state stored under the session key satisfies disjointness and records no
repeatable beat as completed, and the corpus has distinct beat ids, then
the state read back after `analyzeAndTriggerBeats` satisfies both again —
so states reachable without `recordPlayerChoice` (which completes
repeatable beats, see the counterexample) keep each beat id in at most one
of `completedBeats` and `activeBeats`. -/
theorem analyze_preserves_disjointness (store : Store)
    (storyId sessionId playerAction : Str) (actionType : Option Str)
    (storyBeats : List StoryBeatData) (now now2 : Nat) (loc2 : Str)
    (hnd : (storyBeats.map StoryBeatData.id).Nodup)
    (hstore : ∀ s₀, lookupAssoc (stateKey storyId sessionId) store = some s₀ →
      BeatsDisjoint s₀ ∧ NoRepeatableCompleted storyBeats s₀) :
    BeatsDisjoint (getOrCreateStoryState
      (analyzeAndTriggerBeats store storyId sessionId playerAction actionType storyBeats
        now).2 storyId sessionId loc2 now2).1 ∧
    NoRepeatableCompleted storyBeats (getOrCreateStoryState
      (analyzeAndTriggerBeats store storyId sessionId playerAction actionType storyBeats
        now).2 storyId sessionId loc2 now2).1 := by
  cases h : lookupAssoc (stateKey storyId sessionId) store with
  | some s₀ =>
    obtain ⟨h1, h2⟩ := hstore s₀ h
    exact analyze_invariant_core h playerAction actionType now now2 loc2 hnd h1 h2
  | none =>
    rw [analyze_of_absent h]
    have hfresh : BeatsDisjoint (freshState storyId sessionId defaultInitialLocation
        now) ∧ NoRepeatableCompleted storyBeats
        (freshState storyId sessionId defaultInitialLocation now) := by
      constructor
      · intro x hx
        simp [freshState] at hx
      · intro b _ _ hb
        simp [freshState] at hb
    exact analyze_invariant_core
      (lookupAssoc_setAssoc_self (stateKey storyId sessionId)
        (freshState storyId sessionId defaultInitialLocation now) store)
      playerAction actionType now now2 loc2 hnd hfresh.1 hfresh.2

/-- C3 (witness): the amended invariant theorem applied to the concrete
store `exStoreA` and the one-beat corpus `[exBeatRepeatable]`. -/
theorem analyze_preserves_disjointness_witness :
    BeatsDisjoint (getOrCreateStoryState
      (analyzeAndTriggerBeats exStoreA ("a".toList) ("b".toList) ("look".toList) none
        [exBeatRepeatable] 1).2 ("a".toList) ("b".toList) defaultInitialLocation 2).1 ∧
    NoRepeatableCompleted [exBeatRepeatable] (getOrCreateStoryState
      (analyzeAndTriggerBeats exStoreA ("a".toList) ("b".toList) ("look".toList) none
        [exBeatRepeatable] 1).2 ("a".toList) ("b".toList) defaultInitialLocation 2).1 := by
  refine analyze_preserves_disjointness exStoreA ("a".toList) ("b".toList)
    ("look".toList) none [exBeatRepeatable] 1 2 defaultInitialLocation (by decide) ?_
  intro s₀ h
  have h2 : lookupAssoc (stateKey ("a".toList) ("b".toList)) exStoreA =
      some (freshState ("a".toList) ("b".toList) defaultInitialLocation 0) := by decide
  rw [h2] at h
  obtain rfl : freshState ("a".toList) ("b".toList) defaultInitialLocation 0 = s₀ :=
    Option.some.inj h
  constructor
  · intro x hx
    simp [freshState] at hx
  · intro b _ _ hb
    simp [freshState] at hb

/-! ## Claim C4 -/

/-- C4 (counterexample): the full returned list is not ordered by total
score descending: with query `whiskers`, corpus `[exDocR, exDocE1, exDocE2]`
and `maxResults = 1`, the result is the query-phase entry (total 6)
followed by the expansion appends with totals 0 and then 5 — expansion
entries are appended in corpus-scan order, unsorted. -/
theorem search_not_sorted_counterexample :
    ¬ List.Pairwise (fun a b => getTotalScore b ≤ getTotalScore a)
      ((searchStoryContextEnhanced [] ("a".toList) ("b".toList) ("whiskers".toList)
        [exDocR, exDocE1, exDocE2] 1 0).1) := by decide

/-- C4 (amended): every entry of the query-scored phase has positive total
score; the query-scored phase is ordered by total score descending with
ties in corpus order (the sort is stable: filtering by any total-score
value preserves the corpus order of the scored entries); and the returned
list is that phase followed by expansion appends, each carrying
`relevanceScore = 0` — the appended suffix is not itself sorted. -/
theorem search_query_phase_sorted (store : Store) (storyId sessionId query : Str)
    (documents : List StoryDocument) (maxResults now : Nat) :
    (∀ r ∈ (searchQueryPhase store storyId sessionId query documents now).take
      maxResults, 0 < getTotalScore r) ∧
    (searchQueryPhase store storyId sessionId query documents now).Pairwise
      (fun a b => getTotalScore b ≤ getTotalScore a) ∧
    (∀ k : Int, (searchQueryPhase store storyId sessionId query documents now).filter
        (fun r => decide (getTotalScore r = k)) =
      ((searchQueryScored store storyId sessionId query documents now).filter
        (fun r => decide (0 < getTotalScore r))).filter
        (fun r => decide (getTotalScore r = k))) ∧
    ∃ expansion,
      (searchStoryContextEnhanced store storyId sessionId query documents maxResults
        now).1 =
        (searchQueryPhase store storyId sessionId query documents now).take maxResults ++
          expansion ∧
      ∀ e ∈ expansion, e.relevanceScore = 0 := by
  refine ⟨?_, ?_, ?_, ?_⟩
  · intro r hr
    have hr2 := List.mem_of_mem_take hr
    have hr3 := (perm_sortByTotalDesc _).mem_iff.mp hr2
    have := (List.mem_filter.mp hr3).2
    simpa using this
  · exact pairwise_sortByTotalDesc _
  · intro k
    exact filter_sortByTotalDesc k _
  · obtain ⟨t, ht, hrel⟩ := expandRelatedContext_suffix
      ((searchQueryPhase store storyId sessionId query documents now).take maxResults)
      documents
      (getOrCreateStoryState store storyId sessionId defaultInitialLocation now).1
    refine ⟨t, ?_, hrel⟩
    rw [← ht]
    rfl

/-! ## Claim C5 -/

/-- C5: over a stored state, when no beat triggers the store is returned
completely unchanged, and when at least one beat triggers the resulting
store is exactly one `updateStoryState` call carrying the accumulated
`contextModifications` of all triggered beats. -/
theorem analyze_batched_single_update (store : Store)
    (storyId sessionId playerAction : Str) (actionType : Option Str)
    (storyBeats : List StoryBeatData) (now : Nat) (s : StoryState)
    (hs : lookupAssoc (stateKey storyId sessionId) store = some s) :
    ((analyzeAndTriggerBeats store storyId sessionId playerAction actionType storyBeats
        now).1.triggeredBeats = [] →
      (analyzeAndTriggerBeats store storyId sessionId playerAction actionType storyBeats
        now).2 = store) ∧
    ((analyzeAndTriggerBeats store storyId sessionId playerAction actionType storyBeats
        now).1.triggeredBeats ≠ [] →
      (analyzeAndTriggerBeats store storyId sessionId playerAction actionType storyBeats
        now).2 =
      (updateStoryState store storyId sessionId
        (modsToPartial (analyzeAndTriggerBeats store storyId sessionId playerAction
          actionType storyBeats now).1.contextModifications) now).2) := by
  constructor
  · intro h
    rw [analyze_triggered_eq hs] at h
    rw [analyze_store_eq hs, h]
    simp
  · intro h
    rw [analyze_triggered_eq hs] at h
    have hpos : 0 < (storyBeats.filter (fun beat => shouldTriggerBeat beat s
        playerAction actionType)).length := List.length_pos.mpr h
    rw [analyze_store_eq hs, if_pos hpos, analyze_mods_eq hs]
    simp only [updateStoryState, getOrCreate_of_lookup hs]

/-- C5 (witness): with an empty beat corpus nothing triggers and the store
is unchanged; the theorem is applied at the concrete store `exStoreA`. -/
theorem analyze_batched_single_update_witness :
    (analyzeAndTriggerBeats exStoreA ("a".toList) ("b".toList) ("x".toList) none [] 5).2 =
      exStoreA := by
  refine (analyze_batched_single_update exStoreA ("a".toList) ("b".toList) ("x".toList)
    none [] 5 (freshState ("a".toList) ("b".toList) defaultInitialLocation 0)
    (by decide)).1 (by decide)

/-! ## Claim C6 -/

/-- C6: a beat whose id is recorded in `completedBeats` of the stored
state and which is not repeatable is never part of `triggeredBeats`, for
any player action and action type — re-running the evaluation after the
beat completed cannot re-trigger it. -/
theorem completed_nonrepeatable_never_triggers (store : Store)
    (storyId sessionId playerAction : Str) (actionType : Option Str)
    (storyBeats : List StoryBeatData) (now : Nat) (s : StoryState)
    (b : StoryBeatData)
    (hs : lookupAssoc (stateKey storyId sessionId) store = some s)
    (hb : b.id ∈ s.completedBeats) (hrep : b.repeatable = false) :
    b ∉ (analyzeAndTriggerBeats store storyId sessionId playerAction actionType
      storyBeats now).1.triggeredBeats := by
  rw [analyze_triggered_eq hs]
  intro hmem
  have htrig := (List.mem_filter.mp hmem).2
  rw [shouldTriggerBeat] at htrig
  simp [hb, hrep] at htrig

/-- C6 (witness): the theorem applied at the concrete store `exStoreDone`,
whose state has the non-repeatable beat `nb` completed, with the action
`look` that does match the beat's trigger. -/
theorem completed_nonrepeatable_never_triggers_witness :
    exBeatNonRepeatable ∉ (analyzeAndTriggerBeats exStoreDone ("a".toList) ("b".toList)
      ("look".toList) none [exBeatNonRepeatable] 1).1.triggeredBeats := by
  exact completed_nonrepeatable_never_triggers exStoreDone ("a".toList) ("b".toList)
    ("look".toList) none [exBeatNonRepeatable] 1 exStateDone exBeatNonRepeatable
    (by decide) (by decide) (by decide)

/-! ## Claim C7 -/

/-- C7: `updateStoryState` shallow-merges the partial into the stored
record: every top-level field absent from the partial keeps its stored
value, and `metadata.lastUpdated` is refreshed on every call. -/
theorem updateStoryState_shallow_merge (store : Store) (storyId sessionId : Str)
    (u : StoryStatePartial) (now : Nat) (s : StoryState)
    (hs : lookupAssoc (stateKey storyId sessionId) store = some s) :
    (u.storyId = none →
      (updateStoryState store storyId sessionId u now).1.storyId = s.storyId) ∧
    (u.sessionId = none →
      (updateStoryState store storyId sessionId u now).1.sessionId = s.sessionId) ∧
    (u.currentLocation = none →
      (updateStoryState store storyId sessionId u now).1.currentLocation =
        s.currentLocation) ∧
    (u.completedBeats = none →
      (updateStoryState store storyId sessionId u now).1.completedBeats =
        s.completedBeats) ∧
    (u.activeBeats = none →
      (updateStoryState store storyId sessionId u now).1.activeBeats = s.activeBeats) ∧
    (u.discoveredCharacters = none →
      (updateStoryState store storyId sessionId u now).1.discoveredCharacters =
        s.discoveredCharacters) ∧
    (u.knownLocations = none →
      (updateStoryState store storyId sessionId u now).1.knownLocations =
        s.knownLocations) ∧
    (u.playerChoices = none →
      (updateStoryState store storyId sessionId u now).1.playerChoices =
        s.playerChoices) ∧
    (u.relationshipStates = none →
      (updateStoryState store storyId sessionId u now).1.relationshipStates =
        s.relationshipStates) ∧
    (u.inventoryItems = none →
      (updateStoryState store storyId sessionId u now).1.inventoryItems =
        s.inventoryItems) ∧
    (u.revealedLore = none →
      (updateStoryState store storyId sessionId u now).1.revealedLore =
        s.revealedLore) ∧
    (u.storyFlags = none →
      (updateStoryState store storyId sessionId u now).1.storyFlags = s.storyFlags) ∧
    (updateStoryState store storyId sessionId u now).1.metadata.lastUpdated = now := by
  have hg := getOrCreate_of_lookup hs defaultInitialLocation now
  simp only [updateStoryState, hg]
  refine ⟨?_, ?_, ?_, ?_, ?_, ?_, ?_, ?_, ?_, ?_, ?_, ?_, ?_⟩ <;>
    first
      | (intro h; simp [applyPartial, h])
      | simp [applyPartial]

/-- C7 (witness): updating only `currentLocation` on the stored state
`exStateDone` leaves `completedBeats` unchanged and refreshes
`metadata.lastUpdated`. -/
theorem updateStoryState_shallow_merge_witness :
    (updateStoryState exStoreDone ("a".toList) ("b".toList) exPartialLocation 5).1.completedBeats =
      exStateDone.completedBeats ∧
    (updateStoryState exStoreDone ("a".toList) ("b".toList) exPartialLocation 5).1.metadata.lastUpdated = 5 := by
  have H := updateStoryState_shallow_merge exStoreDone ("a".toList) ("b".toList)
    exPartialLocation 5 exStateDone (by decide)
  exact ⟨H.2.2.2.1 rfl, H.2.2.2.2.2.2.2.2.2.2.2.2⟩

/-! ## Claim C8 -/

/-- C8: `updateTension` sets tension to `high` when any high-tension
keyword occurs in the lowercased narrative, else to `medium` when any
medium-tension keyword occurs, else to `low` when any low-tension keyword
occurs, and otherwise keeps the previous tension (sticky, no reset). -/
theorem updateTension_keyword_precedence (narrative : Str) (t : Tension) :
    ((∃ w ∈ highTensionWords, containsSub (toLowerStr narrative) w = true) →
      updateTension narrative t = Tension.high) ∧
    ((∀ w ∈ highTensionWords, containsSub (toLowerStr narrative) w = false) →
      (∃ w ∈ mediumTensionWords, containsSub (toLowerStr narrative) w = true) →
      updateTension narrative t = Tension.medium) ∧
    ((∀ w ∈ highTensionWords, containsSub (toLowerStr narrative) w = false) →
      (∀ w ∈ mediumTensionWords, containsSub (toLowerStr narrative) w = false) →
      (∃ w ∈ lowTensionWords, containsSub (toLowerStr narrative) w = true) →
      updateTension narrative t = Tension.low) ∧
    ((∀ w ∈ highTensionWords, containsSub (toLowerStr narrative) w = false) →
      (∀ w ∈ mediumTensionWords, containsSub (toLowerStr narrative) w = false) →
      (∀ w ∈ lowTensionWords, containsSub (toLowerStr narrative) w = false) →
      updateTension narrative t = t) := by
  have key : ∀ (ws : List Str),
      (0 < (ws.filter (fun word => containsSub (toLowerStr narrative) word)).length ↔
        ∃ w ∈ ws, containsSub (toLowerStr narrative) w = true) := by
    intro ws
    rw [List.length_pos]
    constructor
    · intro h
      obtain ⟨w, hw⟩ := List.exists_mem_of_ne_nil _ h
      exact ⟨w, (List.mem_filter.mp hw).1, (List.mem_filter.mp hw).2⟩
    · rintro ⟨w, hw, hc⟩ hnil
      rw [List.filter_eq_nil_iff] at hnil
      exact hnil w hw (by simp [hc])
  have keyneg : ∀ (ws : List Str),
      (∀ w ∈ ws, containsSub (toLowerStr narrative) w = false) →
      ¬ 0 < (ws.filter (fun word => containsSub (toLowerStr narrative) word)).length := by
    intro ws hall hpos
    obtain ⟨w, hw, hc⟩ := (key ws).mp hpos
    rw [hall w hw] at hc
    exact Bool.false_ne_true hc
  refine ⟨?_, ?_, ?_, ?_⟩
  · intro h
    simp only [updateTension, highTensionCount, mediumTensionCount, lowTensionCount]
    rw [if_pos ((key highTensionWords).mpr h)]
  · intro h0 hm
    simp only [updateTension, highTensionCount, mediumTensionCount, lowTensionCount]
    rw [if_neg (keyneg highTensionWords h0), if_pos ((key mediumTensionWords).mpr hm)]
  · intro h0 hm hl
    simp only [updateTension, highTensionCount, mediumTensionCount, lowTensionCount]
    rw [if_neg (keyneg highTensionWords h0), if_neg (keyneg mediumTensionWords hm),
      if_pos ((key lowTensionWords).mpr hl)]
  · intro h0 hm hl
    simp only [updateTension, highTensionCount, mediumTensionCount, lowTensionCount]
    rw [if_neg (keyneg highTensionWords h0), if_neg (keyneg mediumTensionWords hm),
      if_neg (keyneg lowTensionWords hl)]

/-- C8 (witness): tension set to `high` by a narrative containing `danger`
and `attack` persists across a later narrative with only neutral words. -/
theorem updateTension_keyword_precedence_witness :
    updateTension ("The sun is shining".toList)
      (updateTension ("danger! attack!".toList) Tension.low) = Tension.high := by
  have h1 := (updateTension_keyword_precedence ("danger! attack!".toList) Tension.low).1
    ⟨("danger".toList), by decide, by decide⟩
  rw [h1]
  exact (updateTension_keyword_precedence ("The sun is shining".toList)
    Tension.high).2.2.2 (by decide) (by decide) (by decide)

/-! ## Claim C9 -/

/-- C9: on a query with no alphabetic characters (empty or
punctuation-only), keyword extraction yields zero tokens, every document's
base relevance score is 0, and every entry returned by the search carries
`relevanceScore = 0` (the scoring pipeline is total by construction —
every function is a total Lean definition). -/
theorem scoring_total_no_alpha_query (q : Str)
    (hq : ∀ c ∈ q, ¬ (('a' ≤ c ∧ c ≤ 'z') ∨ ('A' ≤ c ∧ c ≤ 'Z'))) :
    extractKeywords q = [] ∧
    (∀ doc : StoryDocument, calculateBaseScore doc (extractKeywords q) = 0) ∧
    (∀ (store : Store) (storyId sessionId : Str) (documents : List StoryDocument)
        (maxResults now : Nat) (r : EnhancedContext),
      r ∈ (searchStoryContextEnhanced store storyId sessionId q documents maxResults
        now).1 → r.relevanceScore = 0) := by
  have h0 := extractKeywords_eq_nil_of_no_alpha hq
  have hlower : extractKeywords (toLowerStr q) = [] := by
    apply extractKeywords_eq_nil_of_no_alpha
    intro c hc
    obtain ⟨c₀, hc₀, rfl⟩ := List.mem_map.mp hc
    rw [toLowerChar_eq_self (fun h => hq c₀ hc₀ (Or.inr h))]
    exact hq c₀ hc₀
  refine ⟨h0, ?_, ?_⟩
  · intro doc
    rw [h0]
    rfl
  · intro store storyId sessionId documents maxResults now r hr
    obtain ⟨t, ht, hrel⟩ := expandRelatedContext_suffix
      ((searchQueryPhase store storyId sessionId q documents now).take maxResults)
      documents
      (getOrCreateStoryState store storyId sessionId defaultInitialLocation now).1
    have hsearch : (searchStoryContextEnhanced store storyId sessionId q documents
        maxResults now).1 =
        (searchQueryPhase store storyId sessionId q documents now).take maxResults ++
          t := by
      rw [← ht]
      rfl
    rw [hsearch] at hr
    rcases List.mem_append.mp hr with hr | hr
    · have hr2 := List.mem_of_mem_take hr
      have hr3 := (perm_sortByTotalDesc _).mem_iff.mp hr2
      have hr4 := (List.mem_filter.mp hr3).1
      simp only [searchQueryScored] at hr4
      obtain ⟨doc, _, rfl⟩ := List.mem_map.mp hr4
      show calculateBaseScore doc (extractKeywords (toLowerStr q)) = 0
      rw [hlower]
      rfl
    · exact hrel r hr

/-- C9 (witness): the theorem applied to the punctuation-and-digit query
`?!? 123`. -/
theorem scoring_total_no_alpha_query_witness :
    extractKeywords ("?!? 123".toList) = [] ∧
    calculateBaseScore exLoreDoc (extractKeywords ("?!? 123".toList)) = 0 := by
  have H := scoring_total_no_alpha_query ("?!? 123".toList) (by decide)
  exact ⟨H.1, H.2.1 exLoreDoc⟩

/-! ## Claim C10 -/

/-- C10: a token is kept by `extractKeywords` exactly when it is a
whitespace-separated token of the lowercased query of length greater
than 2 that is not a stop word and consists entirely of the letters a–z;
in particular any token containing a digit, hyphen, apostrophe, or other
non-alphabetic character is discarded. -/
theorem extractKeywords_characterization (q w : Str) :
    w ∈ extractKeywords q ↔
      (w ∈ splitWs (toLowerStr q) ∧ 2 < w.length ∧ w ∉ stopWords ∧ w ≠ [] ∧
        ∀ c ∈ w, 'a' ≤ c ∧ c ≤ 'z') := by
  simp only [extractKeywords, List.mem_filter, allLowerAlpha, Bool.and_eq_true,
    List.all_eq_true, decide_eq_true_eq, Bool.not_eq_true', decide_eq_false_iff_not,
    ne_eq]
  tauto

end StoryForge
